import Mathlib

/-!
Verification of the rclone Vault backend (internetarchive/rclone,
`backend/vault`): a shallow embedding, in Lean 4, of the chunker, the flow
identifier derivation, the deposit state machine, the chunk-upload retry
loop, the path validator and the modification-time parsing, together with
theorems settling the behavioural claims about them.

Conventions used throughout:
* Go byte strings are modelled as `List Nat` (each entry a byte < 256).
* Go `int` / `int64` sizes that the claims constrain to be non-negative are
  modelled as `Nat`; where the sign matters (e.g. `src.Size() == -1`) we use
  `Int`.
* `int(math.Ceil(float64 a / float64 b))` on sizes is modelled as exact
  ceiling division on `Nat` (the float round-trip is exact for all sizes
  below 2^53, which covers every realisable file size the code handles).
* Network calls are modelled by passing the response (or transport error)
  in as data; the mutable `Fs` state (the in-flight deposit identifier) is
  threaded explicitly.
-/

namespace Vault

/-- Exact ceiling division on `Nat`; model of
`int(math.Ceil(float64 n / float64 s))` as used by the chunker and by
`getFlowTotalChunks`. -/
def ceilDiv (n s : Nat) : Nat := (n + s - 1) / s

/-- `backend/vault/chunker.go`: `ErrInvalidChunkSize` is the only
construction-time error of the chunker we model (file-open and stat errors
concern the local filesystem, not the chunking logic). -/
inductive ChunkerError
  | invalidChunkSize
  deriving DecidableEq, Repr

/-- `backend/vault/chunker.go`: the `Chunker` struct. The opened file is
modelled by its byte contents; `chunkSize`, `fileSize` and `numChunks` are
the stored fields. -/
structure Chunker where
  chunkSize : Nat
  file : List Nat
  fileSize : Nat
  numChunks : Nat
  deriving DecidableEq, Repr

/-- `backend/vault/chunker.go` `NewChunker`: rejects `chunkSize < 1` with
`ErrInvalidChunkSize`, otherwise stores the file size and
`numChunks = int(math.Ceil(float64(fi.Size()) / float64(chunkSize)))`.
Note there is no special case for an empty file: `numChunks` is 0 when the
file size is 0 (the package's own test expects 0 chunks for ""). -/
def NewChunker (file : List Nat) (chunkSize : Int) : Except ChunkerError Chunker :=
  if chunkSize < 1 then
    .error .invalidChunkSize
  else
    .ok { chunkSize := chunkSize.toNat
          file := file
          fileSize := file.length
          numChunks := ceilDiv file.length chunkSize.toNat }

/-- `backend/vault/chunker.go` `ChunkReader`: a section reader over
`[i*chunkSize, i*chunkSize + chunkSize)`; reading it to the end yields the
bytes `take chunkSize (drop (i*chunkSize) file)`. -/
def Chunker.ChunkReader (c : Chunker) (i : Nat) : List Nat :=
  (c.file.drop (i * c.chunkSize)).take c.chunkSize

/-- `backend/vault/vault.go` `getFlowTotalChunks`: chunk count for an upload
of `objectSize` bytes; 0 maps to 1 (comment WT-2471: a zero-byte file still
yields one zero-length chunk), everything else to the ceiling. -/
def getFlowTotalChunks (objectSize : Nat) (chunkSize : Nat) : Nat :=
  match objectSize with
  | 0 => 1
  | _ => ceilDiv objectSize chunkSize

/-- All chunks of a byte list, in index order, as produced by
`Chunker.ChunkReader` for indices `0 .. numChunks - 1`. -/
def chunks (file : List Nat) (s : Nat) : List (List Nat) :=
  (List.range (ceilDiv file.length s)).map fun i => (file.drop (i * s)).take s

/-! ### MD5 (Go `crypto/md5`) and the flow identifier

`getFlowIdentifier` (vault.go) and `deriveFlowIdentifier` (batcher.go) both
feed the backend root and the object's remote path through Go's `crypto/md5`
and format the digest as `rclone-vault-flow-<md5 hex>`. We implement MD5
(RFC 1321) over byte lists so the identifiers are computable in Lean. -/

/-- The 64 per-round MD5 constants `K[i] = floor(2^32 * abs(sin(i+1)))`. -/
def md5K : List Nat :=
  [0xd76aa478, 0xe8c7b756, 0x242070db, 0xc1bdceee,
   0xf57c0faf, 0x4787c62a, 0xa8304613, 0xfd469501,
   0x698098d8, 0x8b44f7af, 0xffff5bb1, 0x895cd7be,
   0x6b901122, 0xfd987193, 0xa679438e, 0x49b40821,
   0xf61e2562, 0xc040b340, 0x265e5a51, 0xe9b6c7aa,
   0xd62f105d, 0x02441453, 0xd8a1e681, 0xe7d3fbc8,
   0x21e1cde6, 0xc33707d6, 0xf4d50d87, 0x455a14ed,
   0xa9e3e905, 0xfcefa3f8, 0x676f02d9, 0x8d2a4c8a,
   0xfffa3942, 0x8771f681, 0x6d9d6122, 0xfde5380c,
   0xa4beea44, 0x4bdecfa9, 0xf6bb4b60, 0xbebfbc70,
   0x289b7ec6, 0xeaa127fa, 0xd4ef3085, 0x04881d05,
   0xd9d4d039, 0xe6db99e5, 0x1fa27cf8, 0xc4ac5665,
   0xf4292244, 0x432aff97, 0xab9423a7, 0xfc93a039,
   0x655b59c3, 0x8f0ccc92, 0xffeff47d, 0x85845dd1,
   0x6fa87e4f, 0xfe2ce6e0, 0xa3014314, 0x4e0811a1,
   0xf7537e82, 0xbd3af235, 0x2ad7d2bb, 0xeb86d391]

/-- The 64 per-round MD5 left-rotation amounts. -/
def md5S : List Nat :=
  [7, 12, 17, 22, 7, 12, 17, 22, 7, 12, 17, 22, 7, 12, 17, 22,
   5, 9, 14, 20, 5, 9, 14, 20, 5, 9, 14, 20, 5, 9, 14, 20,
   4, 11, 16, 23, 4, 11, 16, 23, 4, 11, 16, 23, 4, 11, 16, 23,
   6, 10, 15, 21, 6, 10, 15, 21, 6, 10, 15, 21, 6, 10, 15, 21]

def mask32 : Nat := 0xffffffff

/-- 32-bit left rotation. -/
def rotl32 (x n : Nat) : Nat := ((x <<< n) ||| (x >>> (32 - n))) &&& mask32

/-- Little-endian 32-bit word `j` of a 64-byte block. -/
def leWord (bs : List Nat) (j : Nat) : Nat :=
  bs.getD (4 * j) 0 + 256 * bs.getD (4 * j + 1) 0 +
    65536 * bs.getD (4 * j + 2) 0 + 16777216 * bs.getD (4 * j + 3) 0

/-- The four 32-bit words of the MD5 state. -/
structure MD5State where
  a : Nat
  b : Nat
  c : Nat
  d : Nat
  deriving DecidableEq, Repr

/-- One of the 64 MD5 rounds over a message block. -/
def md5Step (blk : List Nat) (st : MD5State) (i : Nat) : MD5State :=
  let fg : Nat × Nat :=
    if i < 16 then
      ((st.b &&& st.c) ||| ((st.b ^^^ mask32) &&& st.d), i)
    else if i < 32 then
      ((st.d &&& st.b) ||| ((st.d ^^^ mask32) &&& st.c), (5 * i + 1) % 16)
    else if i < 48 then
      (st.b ^^^ st.c ^^^ st.d, (3 * i + 5) % 16)
    else
      (st.c ^^^ (st.b ||| (st.d ^^^ mask32)), (7 * i) % 16)
  let tmp := (st.a + fg.1 + md5K.getD i 0 + leWord blk fg.2) % 4294967296
  let nb := (st.b + rotl32 tmp (md5S.getD i 0)) % 4294967296
  ⟨st.d, nb, st.b, st.c⟩

/-- Process one padded 64-byte block. -/
def md5Block (st : MD5State) (blk : List Nat) : MD5State :=
  let r := (List.range 64).foldl (md5Step blk) st
  ⟨(st.a + r.a) % 4294967296, (st.b + r.b) % 4294967296,
   (st.c + r.c) % 4294967296, (st.d + r.d) % 4294967296⟩

/-- `count` little-endian bytes of `n`. -/
def leBytes (count n : Nat) : List Nat :=
  (List.range count).map fun i => (n >>> (8 * i)) &&& 0xff

/-- MD5 padding: `0x80`, zeros to 56 mod 64, then the bit length as a 64-bit
little-endian quantity. -/
def md5Pad (msg : List Nat) : List Nat :=
  let len := msg.length
  let k := (56 + 64 - (len + 1) % 64) % 64
  msg ++ [0x80] ++ List.replicate k 0 ++ leBytes 8 ((8 * len) % 18446744073709551616)

/-- MD5 digest (16 bytes) of a byte list; model of Go `crypto/md5`. -/
def md5 (msg : List Nat) : List Nat :=
  let st := (chunks (md5Pad msg) 64).foldl md5Block
    ⟨0x67452301, 0xefcdab89, 0x98badcfe, 0x10325476⟩
  leBytes 4 st.a ++ leBytes 4 st.b ++ leBytes 4 st.c ++ leBytes 4 st.d

/-- Lowercase hex digit, as produced by Go's `%x` verb. -/
def hexChar (n : Nat) : Char :=
  if n < 10 then Char.ofNat (48 + n) else Char.ofNat (87 + n)

/-- Lowercase hex rendering of a byte list (Go `fmt.Sprintf("%x", ...)`). -/
def hexOfBytes (bs : List Nat) : String :=
  ⟨(bs.map fun b => [hexChar (b / 16), hexChar (b % 16)]).flatten⟩

/-- The bytes of an ASCII string literal (every test input in the claims is
ASCII, where Go string bytes and Unicode code points coincide). -/
def ascii (s : String) : List Nat := s.data.map Char.toNat

/-- `backend/vault/vault.go` `getFlowIdentifier`: MD5 over the backend root
followed by the object's remote path, rendered as
`rclone-vault-flow-<hex>`. Both arguments are Go strings, modelled as byte
lists; the function is pure, hence deterministic. -/
def getFlowIdentifier (root remote : List Nat) : String :=
  "rclone-vault-flow" ++ "-" ++ hexOfBytes (md5 (root ++ remote))

/-- `backend/vault/batcher.go` `(*batchItem).deriveFlowIdentifier`: the same
digest of `item.root ++ item.src.Remote()`. -/
def deriveFlowIdentifier (root remote : List Nat) : String :=
  "rclone-vault-flow" ++ "-" ++ hexOfBytes (md5 (root ++ remote))

/-! ### Deposit lifecycle (vault.go `requestDeposit`, `finalize`, `Terminate`)

The one piece of process-wide mutable state is `Fs.inflightDepositID`
(0 = no deposit in flight), guarded by `Fs.mu`. We thread it explicitly and
feed each network exchange's outcome in as data. Concurrency is serialised
by the mutex in the source, so the sequential model captures the protocol. -/

/-- Tree-node kinds of the Vault schema. -/
inductive NodeType
  | organization
  | collection
  | folder
  | file
  deriving DecidableEq, Repr

/-- Semantic error values surfaced by the modelled operations. -/
inductive VaultError
  | cannotCopyToRoot
  | missingDepositIdentifier
  | apiStatus (code : Nat)
  | transport
  | objectNotFound
  | pathExists (t : NodeType)
  | resolveFailed
  deriving DecidableEq, Repr

/-- Outcome of one HTTP exchange: transport failure before any response, or
a response with a status code. -/
inductive HTTPOutcome
  | transportError
  | response (statusCode : Nat)
  deriving DecidableEq, Repr

/-- Outcome of the register-deposit POST. On a 200 the decoded JSON body
carries `DepositId`. -/
inductive RegisterResponse
  | transportError
  | response (statusCode : Nat) (depositId : Nat)
  deriving DecidableEq, Repr

/-- The resolved `f.root` tree node as `requestDeposit` sees it after the
resolve-or-mkdir preamble. `collectionId` is the result of the separate
`TreeNodeToCollection` lookup (`none` models that lookup failing). -/
structure ResolvedRoot where
  nodeType : NodeType
  id : Nat
  collectionId : Option Nat
  deriving DecidableEq, Repr

/-- `backend/vault/vault.go` `requestDeposit`: under the mutex, if
`inflightDepositID != 0` return `nil` immediately (no network request);
otherwise classify the resolved root (COLLECTION → `collectionId`,
FOLDER → `parentNodeId`, anything else → `ErrCannotCopyToRoot`), POST the
registration, and on a 200 with a non-zero `DepositId` store it.
Result: (new `inflightDepositID`, whether the register POST was issued,
error if any). The root resolution — including its mkdir fallback, modelled
separately for the mkdir claims — is collapsed into the `root` argument. -/
def requestDeposit (st : Nat) (root : Except VaultError ResolvedRoot)
    (resp : RegisterResponse) : Nat × Bool × Option VaultError :=
  if st ≠ 0 then (st, false, none)
  else
    match root with
    | .error e => (0, false, some e)
    | .ok node =>
      match node.nodeType with
      | .collection =>
        match node.collectionId with
        | none => (0, false, some .resolveFailed)
        | some _ => registerExchange resp
      | .folder => registerExchange resp
      | _ => (0, false, some .cannotCopyToRoot)
where
  /-- The POST itself and the decoding of its result. -/
  registerExchange : RegisterResponse → Nat × Bool × Option VaultError
  | .transportError => (0, true, some .transport)
  | .response status depositId =>
    if status ≠ 200 then (0, true, some (.apiStatus status))
    else if depositId = 0 then (0, true, some .missingDepositIdentifier)
    else (depositId, true, none)

/-- The environment one `Put` call's registration attempt sees. -/
structure RegisterEnv where
  root : Except VaultError ResolvedRoot
  resp : RegisterResponse

/-- Run a sequence of `Put`-driven `requestDeposit` calls, counting how many
register POSTs are issued. Returns (final `inflightDepositID`, POST count). -/
def runRequests : Nat → List RegisterEnv → Nat × Nat
  | st, [] => (st, 0)
  | st, e :: rest =>
    let r := requestDeposit st e.root e.resp
    let t := runRequests r.1 rest
    (t.1, (if r.2.1 then 1 else 0) + t.2)

/-- Whether an environment lets a registration from the idle state succeed:
the root resolves to a COLLECTION (with a successful collection lookup) or
FOLDER, and the POST returns 200 with a non-zero deposit identifier. -/
def RegisterEnv.succeeds (e : RegisterEnv) : Bool :=
  match e.root with
  | .error _ => false
  | .ok node =>
    (match node.nodeType with
     | .collection => node.collectionId.isSome
     | .folder => true
     | _ => false)
    && (match e.resp with
        | .transportError => false
        | .response status depositId => status == 200 && depositId != 0)

/-- `backend/vault/vault.go` `finalize` (the body of `Shutdown`): under the
mutex, if `inflightDepositID == 0` return `nil` without a network call;
otherwise POST finalize-deposit; a transport error or non-200 status is
returned as an error with the identifier kept; on 200 the identifier is set
to 0. Result: (new identifier, whether the POST was issued, error). -/
def finalize (st : Nat) (resp : HTTPOutcome) : Nat × Bool × Option VaultError :=
  if st = 0 then (st, false, none)
  else
    match resp with
    | .transportError => (st, true, some .transport)
    | .response code =>
      if code ≠ 200 then (st, true, some (.apiStatus code))
      else (0, true, none)

/-- `backend/vault/vault.go` `Terminate` (the atexit hook): if
`inflightDepositID == 0` return immediately; otherwise POST
terminate-deposit (best effort, result logged and swallowed, identifier
never cleared). Result: whether the POST was issued. -/
def terminate (st : Nat) : Bool :=
  if st = 0 then false else true

/-! ### Chunk upload retry loop (vault.go `upload`, step 5e)

Each chunk POST runs inside `retry.Do` with a capped Fibonacci backoff.
The `backend/vault/retry` package itself is not among the sources; its
backoff sequence is modelled from the spec ("capped Fibonacci backoff
starting at 100 ms, capped at 30 s"). The classification of an attempt —
retry on transport error or 5xx, surface 4xx — is translated from the
`switch` in `upload`. One `context.WithTimeout(context.Background(),
UploadChunkTimeout)` is created per chunk, before `retry.Do`; the model
counts these context creations. -/

/-- `UploadChunkTimeout = 24 * time.Hour`, in milliseconds. -/
def uploadChunkTimeoutMillis : Nat := 86400000

/-- `UploadChunkBackoffBase = 100 * time.Millisecond`. -/
def uploadChunkBackoffBaseMillis : Nat := 100

/-- `UploadChunkBackoffCap = 30 * time.Second`, in milliseconds. -/
def uploadChunkBackoffCapMillis : Nat := 30000

/-- Modelled from the spec: the Fibonacci sequence 1, 1, 2, 3, 5, … driving
`retry.NewFibonacci` (the retry package is not among the sources). -/
def fibSeq : Nat → Nat
  | 0 => 1
  | 1 => 1
  | n + 2 => fibSeq n + fibSeq (n + 1)

/-- Modelled from the spec: the delay slept before retry `k` (0-based) —
the Fibonacci multiple of 100 ms, capped at 30 s
(`retry.WithCappedDuration(UploadChunkBackoffCap,
retry.NewFibonacci(UploadChunkBackoffBase))`). -/
def backoffDelay (k : Nat) : Nat :=
  min uploadChunkBackoffCapMillis (uploadChunkBackoffBaseMillis * fibSeq k)

/-- What one chunk POST attempt produced. -/
inductive AttemptResult
  | transportError
  | response (statusCode : Nat)
  deriving DecidableEq, Repr

/-- Decision taken by the retry closure in `upload` (5e). -/
inductive AttemptDecision
  | retryable
  | fatal (code : Nat)
  | success
  deriving DecidableEq, Repr

/-- The `switch` inside the retry closure of `upload`: a transport error is
wrapped `retry.RetryableError` (checked first); a status ≥ 500 likewise;
a status ≥ 400 aborts the chunk upload with a plain error; anything else
is success. -/
def classifyAttempt : AttemptResult → AttemptDecision
  | .transportError => .retryable
  | .response code =>
    if 500 ≤ code then .retryable
    else if 400 ≤ code then .fatal code
    else .success

/-- Observable trace of uploading one chunk. -/
structure ChunkUploadTrace where
  attemptsUsed : Nat
  succeeded : Bool
  fatalCode : Option Nat
  delaysSlept : List Nat
  contextsCreated : Nat
  deriving DecidableEq, Repr

/-- The retry loop for one chunk, driven by the planned sequence of attempt
outcomes: stop on the first success or non-retryable failure, sleep the
`k`-th backoff delay after the `k`-th retryable attempt. If the outcome
list runs out the chunk is still unresolved (`succeeded = false`). -/
def runRetryLoop : List AttemptResult → Nat → ChunkUploadTrace
  | [], k => ⟨k, false, none, [], 1⟩
  | r :: rest, k =>
    match classifyAttempt r with
    | .success => ⟨k + 1, true, none, [], 1⟩
    | .fatal c => ⟨k + 1, false, some c, [], 1⟩
    | .retryable =>
      let t := runRetryLoop rest (k + 1)
      { t with delaysSlept := backoffDelay k :: t.delaysSlept }

/-- One iteration of the per-chunk loop body of `upload` (5e): exactly one
fresh `context.WithTimeout(…, UploadChunkTimeout)` is created, then the
retry loop runs all attempts under that single context. -/
def runChunkRetry (results : List AttemptResult) : ChunkUploadTrace :=
  runRetryLoop results 0

/-- Number of retryable attempts at the head of the planned outcomes; the
retry loop sleeps exactly one backoff delay per such attempt. -/
def numRetried : List AttemptResult → Nat
  | [] => 0
  | r :: rest =>
    match classifyAttempt r with
    | .retryable => 1 + numRetried rest
    | _ => 0

/-! ### Unknown-size spooling (vault.go `objectSize` and `Put` step 3)

When the source backend cannot report a size (`src.Size() == -1`), `Put`
calls `objectSize`, which spools the stream to a temporary file via
`iotemp.TempFileFromReader` (fully consuming the input reader), stats it,
and is documented to "return the temporary filename". The model records
what the caller observably gets: the returned tempfile name, the computed
size, and the bytes still readable from `in` afterwards. -/

/-- The object-info/reader pair handed to `Put`: the reported size
(`-1` = unknown) and the bytes the reader will deliver. -/
structure SrcInfo where
  size : Int
  streamBytes : List Nat
  deriving DecidableEq, Repr

/-- The temporary filename `iotemp.TempFileFromReader` would create; an
abstract fresh name (its exact value never matters). -/
def tempSpoolName : String := "/tmp/tempfile-spool"

/-- `backend/vault/vault.go` `objectSize`: for an unknown size the stream is
spooled to a temp file (consuming the reader) and the stat size of that file
is used — but the function's final statement is `return "", size, nil`, so
the spooled filename is discarded in every path. Result: (returned tempfile
name, size, bytes remaining in `in` after the call). -/
def objectSize (src : SrcInfo) : String × Nat × List Nat :=
  if src.size = -1 then
    -- spool: `TempFileFromReader(in)` drains the reader into the temp file,
    -- `os.Stat` yields its length; the local `tempfile` variable is then
    -- dropped by `return "", size, nil`.
    ("", src.streamBytes.length, [])
  else
    ("", src.size.toNat, src.streamBytes)

/-- What `Put` (steps 3–5) observably does with the spool: reopen and
schedule deletion only when `objectSize` returned a non-empty tempfile
name. -/
structure PutSpoolResult where
  tempfileReturned : String
  reopenedSpool : Bool
  tempfileDeleted : Bool
  bytesStreamedToChunks : List Nat
  totalSize : Nat
  deriving DecidableEq, Repr

/-- `backend/vault/vault.go` `Put`, step 3: call `objectSize`; if the
returned `tempfile` is non-empty, reopen it (making its contents the chunk
loop's input) and defer its deletion; otherwise keep reading the original
`in`. -/
def putSpool (src : SrcInfo) : PutSpoolResult :=
  let r := objectSize src
  if r.1 = "" then
    { tempfileReturned := ""
      reopenedSpool := false
      tempfileDeleted := false
      bytesStreamedToChunks := r.2.2
      totalSize := r.2.1 }
  else
    { tempfileReturned := r.1
      reopenedSpool := true
      tempfileDeleted := true
      bytesStreamedToChunks := src.streamBytes
      totalSize := r.2.1 }

/-! ### Path validator (package `pathutil`, quoted in backend/vault/README.md)

`IsValidPath` operates on the raw bytes of the Go string. The checks are
translated in source order. The only stdlib call without a self-contained
definition is `xml.Decoder.Decode` over `<x>…</x>`; it is modelled (see
`xmlTextOk`) as: the bytes decode as UTF-8 and contain no markup
(`<`, `&`) and no code point outside the XML 1.0 character range — faithful
for every input free of XML markup, which includes all concrete paths the
claims test. -/

def maxPathLength : Nat := 4096

def maxNameLength : Nat := 255

/-- `strings.Contains(remote, "//")` for byte lists. -/
def hasDoubleSlash : List Nat → Bool
  | a :: b :: rest => (a == 47 && b == 47) || hasDoubleSlash (b :: rest)
  | _ => false

/-- `strings.TrimLeft(remote, "/")`. -/
def trimLeftSlash : List Nat → List Nat
  | 47 :: rest => trimLeftSlash rest
  | l => l

/-- `strings.Split(remote, "/")`: split on every slash, keeping empty
segments. -/
def splitSlash (l : List Nat) : List (List Nat) :=
  go l []
where
  go : List Nat → List Nat → List (List Nat)
  | [], acc => [acc.reverse]
  | b :: rest, acc =>
    if b == 47 then acc.reverse :: go rest [] else go rest (b :: acc)

/-- Whether a byte is a UTF-8 continuation byte (`0x80–0xBF`). -/
def utf8Cont (b : Nat) : Bool := 128 ≤ b && b ≤ 191

/-- `utf8.ValidString` over the bytes: RFC 3629 validity (no overlong
encodings, no surrogates, nothing above U+10FFFF). -/
def utf8Valid : List Nat → Bool
  | [] => true
  | b :: rest =>
    if b ≤ 127 then utf8Valid rest
    else if 194 ≤ b && b ≤ 223 then
      match rest with
      | c1 :: rest2 => utf8Cont c1 && utf8Valid rest2
      | [] => false
    else if b == 224 then
      match rest with
      | c1 :: c2 :: rest2 => (160 ≤ c1 && c1 ≤ 191) && utf8Cont c2 && utf8Valid rest2
      | _ => false
    else if (225 ≤ b && b ≤ 236) || b == 238 || b == 239 then
      match rest with
      | c1 :: c2 :: rest2 => utf8Cont c1 && utf8Cont c2 && utf8Valid rest2
      | _ => false
    else if b == 237 then
      match rest with
      | c1 :: c2 :: rest2 => (128 ≤ c1 && c1 ≤ 159) && utf8Cont c2 && utf8Valid rest2
      | _ => false
    else if b == 240 then
      match rest with
      | c1 :: c2 :: c3 :: rest2 =>
        (144 ≤ c1 && c1 ≤ 191) && utf8Cont c2 && utf8Cont c3 && utf8Valid rest2
      | _ => false
    else if 241 ≤ b && b ≤ 243 then
      match rest with
      | c1 :: c2 :: c3 :: rest2 =>
        utf8Cont c1 && utf8Cont c2 && utf8Cont c3 && utf8Valid rest2
      | _ => false
    else if b == 244 then
      match rest with
      | c1 :: c2 :: c3 :: rest2 =>
        (128 ≤ c1 && c1 ≤ 143) && utf8Cont c2 && utf8Cont c3 && utf8Valid rest2
      | _ => false
    else false

/-- UTF-8 decoding to code points (used only by the XML model). -/
def utf8Decode : List Nat → Option (List Nat)
  | [] => some []
  | b :: rest =>
    if b ≤ 127 then (utf8Decode rest).map (b :: ·)
    else if 194 ≤ b && b ≤ 223 then
      match rest with
      | c1 :: rest2 =>
        if utf8Cont c1 then
          (utf8Decode rest2).map (((b - 192) * 64 + (c1 - 128)) :: ·)
        else none
      | [] => none
    else if 224 ≤ b && b ≤ 239 then
      match rest with
      | c1 :: c2 :: rest2 =>
        if utf8Cont c1 && utf8Cont c2 then
          (utf8Decode rest2).map
            (((b - 224) * 4096 + (c1 - 128) * 64 + (c2 - 128)) :: ·)
        else none
      | _ => none
    else if 240 ≤ b && b ≤ 244 then
      match rest with
      | c1 :: c2 :: c3 :: rest2 =>
        if utf8Cont c1 && utf8Cont c2 && utf8Cont c3 then
          (utf8Decode rest2).map
            (((b - 240) * 262144 + (c1 - 128) * 4096 + (c2 - 128) * 64 + (c3 - 128)) :: ·)
        else none
      | _ => none
    else none

/-- XML 1.0 `Char` production. -/
def xmlCharOk (cp : Nat) : Bool :=
  cp == 9 || cp == 10 || cp == 13 || (32 ≤ cp && cp ≤ 55295) ||
    (57344 ≤ cp && cp ≤ 65533) || (65536 ≤ cp && cp ≤ 1114111)

/-- Modelled from the spec: the `xml.NewDecoder(… "<x>%s</x>" …).Decode`
check — the path must be XML 1.0 character data: decodable, free of markup
characters and of code points outside the XML character range. -/
def xmlTextOk (bs : List Nat) : Bool :=
  match utf8Decode bs with
  | none => false
  | some cps => !cps.contains 60 && !cps.contains 38 && cps.all xmlCharOk

/-- `pathutil.DefaultVaultItemPrefixes`. -/
def defaultVaultItemPrefixes : List (List Nat) :=
  [ascii "DPS-VAULT", ascii "IA-DPS-VAULT"]

/-- The reserved petabox suffixes from `isValidPath`. -/
def invalidSuffixes : List (List Nat) :=
  [ascii "_files.xml", ascii "_meta.sqlite", ascii "_meta.xml", ascii "_reviews.xml"]

/-- The prefix/suffix loop of `isValidPath`: the path minus leading slashes
starts with a reserved item-name prefix while the path ends with a reserved
suffix. -/
def reservedName (prefixes : List (List Nat)) (remote : List Nat) : Bool :=
  prefixes.any fun p =>
    invalidSuffixes.any fun suf =>
      List.isSuffixOf suf remote && List.isPrefixOf p (trimLeftSlash remote)

/-- One segment violating the `.` / `..` / NAME_MAX rule. -/
def badSegment (s : List Nat) : Bool :=
  s == [46] || s == [46, 46] || maxNameLength < s.length

/-- `pathutil.isValidPath(remote, prefixes...)`, checks in source order:
empty, exactly "/", PATH_MAX, "//", UTF-8 validity, reserved
prefix/suffix pairs, per-segment rules, NUL/LF/CR, and the XML
character-data probe. -/
def isValidPathWith (prefixes : List (List Nat)) (remote : List Nat) : Bool :=
  if remote == [] then false
  else if remote == [47] then false
  else if maxPathLength < remote.length then false
  else if hasDoubleSlash remote then false
  else if !utf8Valid remote then false
  else if reservedName prefixes remote then false
  else if (splitSlash remote).any badSegment then false
  else if remote.contains 0 || remote.contains 10 || remote.contains 13 then false
  else xmlTextOk remote

/-- `pathutil.IsValidPath`: `isValidPath` with the default prefixes. -/
def IsValidPath (remote : List Nat) : Bool :=
  isValidPathWith defaultVaultItemPrefixes remote

/-! ### Directory creation (vault.go `mkdir`)

`mkdir` resolves the absolute path and switches on the result; the creation
walk issues `CreateCollection` / `CreateFolder` calls against the server
and re-resolves after each. The remote server is modelled as a map from the
exact strings the code resolves to node types. -/

/-- The server's tree as the resolver sees it: an association of resolvable
path strings to node types. -/
structure ServerState where
  nodes : List (String × NodeType)
  deriving Repr

/-- `api.ResolvePath` against the modelled server. -/
def resolveNode (st : ServerState) (p : String) : Option NodeType :=
  (st.nodes.find? fun kv => kv.1 == p).map (·.2)

/-- `api.CreateCollection`: the server records a collection resolvable under
the created name. -/
def createCollectionSrv (st : ServerState) (name : String) : ServerState :=
  ⟨(name, .collection) :: st.nodes⟩

/-- `api.CreateFolder`: the server records a folder resolvable under the
walk's current path. -/
def createFolderSrv (st : ServerState) (path : String) : ServerState :=
  ⟨(path, .folder) :: st.nodes⟩

/-- `backend/vault/vault.go` `pathSegments`: split on the separator, skip
whitespace-only parts, trim separators from each part. -/
def pathSegmentsStr (p : String) : List String :=
  (p.splitOn "/").filter fun s => !(s.trim == "")

/-- `strings.Count(dir, "/")`. -/
def countSlashStr (p : String) : Nat := p.data.countP (· == '/')

/-- `path.Join(current, s)` for the already-clean operands the walk uses. -/
def pathJoinStr (a b : String) : String := if a == "" then b else a ++ "/" ++ b

/-- `path.Base(dir)` for clean absolute paths: the last non-empty segment,
or "/" when there is none. -/
def pathBaseStr (p : String) : String :=
  match ((p.splitOn "/").filter fun s => !(s == "")).getLast? with
  | some b => b
  | none => "/"

/-- The creation walk of `mkdir` (the `default:` branch): for each segment,
resolve the accumulated path; if absent, create a collection for the first
segment and folders below, then re-resolve (an error if still absent). -/
def mkdirWalk : ServerState → List String → String → Nat → Except VaultError ServerState
  | st, [], _, _ => .ok st
  | st, s :: rest, current, i =>
    let cur := pathJoinStr current s
    match resolveNode st cur with
    | some _ => mkdirWalk st rest cur (i + 1)
    | none =>
      let st2 := if i = 0 then createCollectionSrv st s else createFolderSrv st cur
      match resolveNode st2 cur with
      | none => .error .resolveFailed
      | some _ => mkdirWalk st2 rest cur (i + 1)

/-- `backend/vault/vault.go` `mkdir` (dir is the absolute path): an existing
FOLDER or COLLECTION is accepted silently; any other existing node is a
"path already exists" error; a fresh top-level path becomes a collection;
deeper paths run the creation walk. -/
def mkdirGo (st : ServerState) (root dir : String) : Except VaultError ServerState :=
  match resolveNode st dir with
  | some t =>
    if t == .folder || t == .collection then .ok st
    else .error (.pathExists t)
  | none =>
    if root == "/" || countSlashStr dir == 1 then
      .ok (createCollectionSrv st (pathBaseStr dir))
    else
      match pathSegmentsStr dir with
      | [] => .error .resolveFailed
      | s :: rest => mkdirWalk st (s :: rest) "" 0

/-! ### Modification time (vault.go `Object.ModTime`)

`ModTime` returns `time.Unix(0, 0)` for a nil object or nil tree node, and
otherwise tries three `time.Parse` layouts in order, falling back to the
epoch if none matches. The layouts are
`"January 2, 2006 15:04:05 UTC"`, `"2006-01-02T15:04:05.99Z"` and
`"2006-01-02T15:04:05.999999Z"`. Go's parser treats `.99` and `.999999`
identically (a `stdFracSecond9` consumes an optional fraction of up to
nine digits regardless of the layout's digit count), so the two ISO
layouts share one parser. Times parse without zone information, hence in
UTC; a parsed instant is modelled by its broken-down UTC fields. -/

/-- A UTC instant as Go's `time.Parse` produces for these layouts. -/
structure GoTime where
  year : Nat
  month : Nat
  day : Nat
  hour : Nat
  minute : Nat
  second : Nat
  nsec : Nat
  deriving DecidableEq, Repr

/-- `time.Unix(0, 0)`: the Unix epoch. -/
def epochTime : GoTime := ⟨1970, 1, 1, 0, 0, 0, 0⟩

/-- ASCII digit test (Go `isDigit`). -/
def isDigitC (c : Char) : Bool := 48 ≤ c.toNat && c.toNat ≤ 57

/-- Go `getnum` with `fixed = false`: one or two digits. -/
def getNum2 : List Char → Option (Nat × List Char)
  | c1 :: c2 :: rest =>
    if isDigitC c1 then
      if isDigitC c2 then some ((c1.toNat - 48) * 10 + (c2.toNat - 48), rest)
      else some (c1.toNat - 48, c2 :: rest)
    else none
  | [c1] => if isDigitC c1 then some (c1.toNat - 48, []) else none
  | [] => none

/-- Go `getnum` with `fixed = true`: exactly two digits. -/
def getNumFixed2 : List Char → Option (Nat × List Char)
  | c1 :: c2 :: rest =>
    if isDigitC c1 && isDigitC c2 then
      some ((c1.toNat - 48) * 10 + (c2.toNat - 48), rest)
    else none
  | _ => none

/-- The four-digit year of layout element `2006`. -/
def getNum4 : List Char → Option (Nat × List Char)
  | c1 :: c2 :: c3 :: c4 :: rest =>
    if isDigitC c1 && isDigitC c2 && isDigitC c3 && isDigitC c4 then
      some ((c1.toNat - 48) * 1000 + (c2.toNat - 48) * 100 +
        (c3.toNat - 48) * 10 + (c4.toNat - 48), rest)
    else none
  | _ => none

/-- Literal layout text must match exactly. -/
def lit (pat : List Char) (s : List Char) : Option (List Char) :=
  if List.isPrefixOf pat s then some (s.drop pat.length) else none

/-- ASCII lowering, as Go's case-insensitive `match` does with `| 0x20`. -/
def lowerC (c : Char) : Char :=
  if 65 ≤ c.toNat && c.toNat ≤ 90 then Char.ofNat (c.toNat + 32) else c

/-- Case-insensitive prefix match of a month name. -/
def ciIsPrefixOf : List Char → List Char → Bool
  | [], _ => true
  | _ :: _, [] => false
  | p :: ps, c :: cs => lowerC p == lowerC c && ciIsPrefixOf ps cs

/-- `longMonthNames`. -/
def monthNames : List (List Char) :=
  ["January".data, "February".data, "March".data, "April".data, "May".data,
   "June".data, "July".data, "August".data, "September".data,
   "October".data, "November".data, "December".data]

/-- Go `lookup(longMonthNames, value)`: the first name matching
case-insensitively as a prefix; yields the 1-based month. -/
def lookupMonthAux : List (List Char) → Nat → List Char → Option (Nat × List Char)
  | [], _, _ => none
  | n :: rest, i, s =>
    if ciIsPrefixOf n s then some (i + 1, s.drop n.length)
    else lookupMonthAux rest (i + 1) s

def lookupMonth (s : List Char) : Option (Nat × List Char) :=
  lookupMonthAux monthNames 0 s

/-- Take up to `n` leading digits. -/
def takeDigits : Nat → List Char → List Char × List Char
  | 0, s => ([], s)
  | _ + 1, [] => ([], [])
  | n + 1, c :: cs =>
    if isDigitC c then
      let r := takeDigits n cs
      (c :: r.1, r.2)
    else ([], c :: cs)

/-- Go `stdFracSecond9`: an optional `.`/`,` plus up to nine digits, scaled
to nanoseconds; absent fraction parses as 0 consuming nothing. -/
def parseFrac : List Char → Nat × List Char
  | c :: d :: rest =>
    if (c == '.' || c == ',') && isDigitC d then
      let r := takeDigits 9 (d :: rest)
      let digits := r.1.foldl (fun acc ch => acc * 10 + (ch.toNat - 48)) 0
      (digits * 10 ^ (9 - r.1.length), r.2)
    else (0, c :: d :: rest)
  | s => (0, s)

/-- Gregorian leap year. -/
def isLeapYear (y : Nat) : Bool := y % 4 == 0 && (y % 100 != 0 || y % 400 == 0)

/-- Days in a month, as Go's date validation uses. -/
def daysInMonth (y m : Nat) : Nat :=
  if m == 2 then (if isLeapYear y then 29 else 28)
  else if m == 4 || m == 6 || m == 9 || m == 11 then 30
  else 31

/-- The range checks Go's `Parse` applies after scanning. -/
def validDate (t : GoTime) : Bool :=
  1 ≤ t.month && t.month ≤ 12 && 1 ≤ t.day && t.day ≤ daysInMonth t.year t.month &&
    t.hour < 24 && t.minute < 60 && t.second < 60

/-- `time.Parse("January 2, 2006 15:04:05 UTC", s)` (the trailing `UTC` is
literal text — only `MST` is a zone placeholder). -/
def parseLayout1 (cs : List Char) : Option GoTime := do
  let (mon, r1) ← lookupMonth cs
  let r2 ← lit [' '] r1
  let (day, r3) ← getNum2 r2
  let r4 ← lit [',', ' '] r3
  let (yr, r5) ← getNum4 r4
  let r6 ← lit [' '] r5
  let (hh, r7) ← getNum2 r6
  let r8 ← lit [':'] r7
  let (mm, r9) ← getNumFixed2 r8
  let r10 ← lit [':'] r9
  let (ss, r11) ← getNumFixed2 r10
  let r12 ← lit " UTC".data r11
  if r12 = [] then
    let t : GoTime := ⟨yr, mon, day, hh, mm, ss, 0⟩
    if validDate t then some t else none
  else none

/-- `time.Parse` for both `"2006-01-02T15:04:05.99Z"` and
`"2006-01-02T15:04:05.999999Z"` (identical parsing behaviour). -/
def parseLayoutIso (cs : List Char) : Option GoTime := do
  let (yr, r1) ← getNum4 cs
  let r2 ← lit ['-'] r1
  let (mon, r3) ← getNumFixed2 r2
  let r4 ← lit ['-'] r3
  let (day, r5) ← getNumFixed2 r4
  let r6 ← lit ['T'] r5
  let (hh, r7) ← getNum2 r6
  let r8 ← lit [':'] r7
  let (mm, r9) ← getNumFixed2 r8
  let r10 ← lit [':'] r9
  let (ss, r11) ← getNumFixed2 r10
  let fr := parseFrac r11
  let r12 ← lit ['Z'] fr.2
  if r12 = [] then
    let t : GoTime := ⟨yr, mon, day, hh, mm, ss, fr.1⟩
    if validDate t then some t else none
  else none

/-- The three layouts of `ModTime`, in source order (the second and third
parse identically, see the section comment). -/
def modTimeLayouts : List (List Char → Option GoTime) :=
  [parseLayout1, parseLayoutIso, parseLayoutIso]

/-- First successful parse among the layouts (the `for _, l := range layouts`
loop of `ModTime`). -/
def firstParse : List (List Char → Option GoTime) → List Char → Option GoTime
  | [], _ => none
  | p :: ps, s =>
    match p s with
    | some t => some t
    | none => firstParse ps s

/-- A tree node as `ModTime` reads it: only `ModifiedAt` matters. -/
structure TreeNodeM where
  modifiedAt : String
  deriving DecidableEq, Repr

/-- An `Object` with its possibly-nil tree node. -/
structure ObjectM where
  treeNode : Option TreeNodeM
  deriving DecidableEq, Repr

/-- `backend/vault/vault.go` `Object.ModTime` (the receiver may itself be
nil): epoch for a nil object or nil tree node, else the first layout that
parses `ModifiedAt`, else epoch. -/
def ModTime (o : Option ObjectM) : GoTime :=
  match o with
  | none => epochTime
  | some obj =>
    match obj.treeNode with
    | none => epochTime
    | some node =>
      match firstParse modTimeLayouts node.modifiedAt.data with
      | some t => t
      | none => epochTime

/-- The chunk count `NewChunker` reports, when construction succeeds. -/
def newChunkerNumChunks (file : List Nat) (chunkSize : Int) : Option Nat :=
  match NewChunker file chunkSize with
  | .ok c => some c.numChunks
  | .error _ => none

-- Arithmetic scaffolding for the chunker theorems.

theorem ceilDiv_zero_left (s : Nat) : ceilDiv 0 s = 0 := by
  unfold ceilDiv
  rcases Nat.eq_zero_or_pos s with h | h
  · subst h; rfl
  · exact Nat.div_eq_of_lt (by omega)

theorem ceilDiv_succ_step (n s : Nat) (hs : 1 ≤ s) (hn : 0 < n) :
    ceilDiv n s = ceilDiv (n - s) s + 1 := by
  unfold ceilDiv
  rcases le_or_lt n s with h | h
  · have h1 : (n - s + s - 1) / s = 0 := by
      have : n - s = 0 := by omega
      rw [this]
      exact Nat.div_eq_of_lt (by omega)
    have h2 : (n + s - 1) / s = 1 := Nat.div_eq_of_lt_le (by omega) (by omega)
    rw [h1, h2]
  · have : n + s - 1 = (n - s + s - 1) + s := by omega
    rw [this, Nat.add_div_right _ (by omega)]

theorem ceilDiv_le_mul (s : Nat) (hs : 1 ≤ s) : ∀ n, n ≤ ceilDiv n s * s := by
  intro n
  induction n using Nat.strong_induction_on with
  | _ n ih =>
    rcases Nat.eq_zero_or_pos n with h | h
    · subst h; rw [ceilDiv_zero_left]; omega
    · rw [ceilDiv_succ_step n s hs h]
      have h1 := ih (n - s) (by omega)
      have h2 : (ceilDiv (n - s) s + 1) * s = ceilDiv (n - s) s * s + s := by ring
      omega

theorem ceilDiv_le_of_le_mul (s : Nat) (hs : 1 ≤ s) :
    ∀ k n, n ≤ k * s → ceilDiv n s ≤ k := by
  intro k
  induction k with
  | zero =>
    intro n h
    have hn : n = 0 := by omega
    subst hn
    rw [ceilDiv_zero_left]
  | succ k ih =>
    intro n h
    rcases Nat.eq_zero_or_pos n with h0 | h0
    · subst h0; rw [ceilDiv_zero_left]; omega
    · rw [ceilDiv_succ_step n s hs h0]
      have hk : (k + 1) * s = k * s + s := by ring
      have := ih (n - s) (by omega)
      omega

theorem lt_ceilDiv_mul (n s i : Nat) (hs : 1 ≤ s) (hi : i + 1 < ceilDiv n s) :
    (i + 1) * s < n := by
  by_contra hc
  have h1 : n ≤ (i + 1) * s := by omega
  have := ceilDiv_le_of_le_mul s hs (i + 1) n h1
  omega

theorem chunks_cons (l : List Nat) (s : Nat) (hs : 1 ≤ s) (hl : l ≠ []) :
    chunks l s = l.take s :: chunks (l.drop s) s := by
  unfold chunks
  have hlen : 0 < l.length := List.length_pos.mpr hl
  rw [ceilDiv_succ_step l.length s hs hlen, List.range_succ_eq_map, List.map_cons,
    List.length_drop]
  simp only [Nat.zero_mul, List.drop_zero, List.map_map]
  congr 1
  apply List.map_congr_left
  intro i _
  simp only [Function.comp_apply]
  rw [Nat.succ_mul, Nat.add_comm (i * s) s, ← List.drop_drop]

theorem chunks_join_aux (s : Nat) (hs : 1 ≤ s) :
    ∀ n l, List.length l ≤ n → (chunks l s).flatten = l := by
  intro n
  induction n with
  | zero =>
    intro l h
    have hnil : l = [] := List.eq_nil_of_length_eq_zero (by omega)
    subst hnil
    unfold chunks
    rw [List.length_nil, ceilDiv_zero_left]
    rfl
  | succ n ih =>
    intro l h
    rcases eq_or_ne l [] with hnil | hne
    · subst hnil
      unfold chunks
      rw [List.length_nil, ceilDiv_zero_left]
      rfl
    · rw [chunks_cons l s hs hne, List.flatten_cons,
        ih (l.drop s) (by rw [List.length_drop]; omega)]
      exact List.take_append_drop s l

/-- Concatenating all chunks in index order reconstructs the file. -/
theorem chunks_join (s : Nat) (hs : 1 ≤ s) (l : List Nat) :
    (chunks l s).flatten = l :=
  chunks_join_aux s hs l.length l le_rfl

/-! ### Claim theorems -/

set_option maxRecDepth 1000000 in
/-- C1: for every backend root `r` and remote path `p`, the flow identifier
(`getFlowIdentifier` in the facade and `deriveFlowIdentifier` in the
batcher compute the same value) equals `rclone-vault-flow-` followed by the
lowercase hex MD5 digest of `r ++ p`; determinism is immediate because both
are pure functions of `(r, p)`; and the two concrete pairs from the spec
evaluate to the quoted identifiers. -/
theorem claim_C1_flow_identifier :
    (∀ root remote : List Nat,
      getFlowIdentifier root remote =
        "rclone-vault-flow-" ++ hexOfBytes (md5 (root ++ remote))) ∧
    (∀ root remote : List Nat,
      deriveFlowIdentifier root remote = getFlowIdentifier root remote) ∧
    getFlowIdentifier (ascii "/") (ascii "abc") =
      "rclone-vault-flow-482a7143ac747eff5e5a5992a6016d65" ∧
    getFlowIdentifier (ascii "/") (ascii "") =
      "rclone-vault-flow-6666cd76f96956469e7be39d750cc7d9" :=
  ⟨fun _ _ => rfl, fun _ _ => rfl, by decide, by decide⟩

/-- C2 (counterexample): a zero-byte file with chunk size 1024 constructs a
chunker whose reported chunk count is 0, not 1 as the claim states — the
zero-size special case exists only in `getFlowTotalChunks`, not in
`NewChunker` (whose own unit test expects 0 chunks for the empty file). -/
theorem claim_C2_counterexample :
    newChunkerNumChunks [] 1024 = some 0 ∧
    (newChunkerNumChunks [] 1024 == some 1) = false :=
  ⟨rfl, rfl⟩

/-- C2 (amended): for size `n ≥ 0` and chunk size `S ≥ 1`, the uploader's
`getFlowTotalChunks` equals `⌈n / S⌉` with the special case `n = 0 ↦ 1`,
while `Chunker.NumChunks` after `NewChunker` equals plain `⌈n / S⌉` with no
zero special case (0 for an empty file); the two agree for every `n > 0`. -/
theorem claim_C2_chunk_counts (file : List Nat) (s : Nat) (hs : 1 ≤ s) :
    NewChunker file (s : Int) =
      .ok { chunkSize := s, file := file, fileSize := file.length,
            numChunks := ceilDiv file.length s } ∧
    getFlowTotalChunks file.length s =
      (if file.length = 0 then 1 else ceilDiv file.length s) ∧
    (0 < file.length →
      getFlowTotalChunks file.length s = ceilDiv file.length s) := by
  refine ⟨?_, ?_, ?_⟩
  · have hns : ¬((s : Int) < 1) := by exact_mod_cast Nat.not_lt.mpr hs
    rw [NewChunker, if_neg hns]
    simp [Int.toNat_natCast]
  · cases h : file.length with
    | zero => simp [getFlowTotalChunks]
    | succ n => simp [getFlowTotalChunks]
  · intro hpos
    cases h : file.length with
    | zero => omega
    | succ n => simp [getFlowTotalChunks]

/-- Witness for C2 at `file = "a"`, `S = 2`. -/
theorem claim_C2_chunk_counts_witness :
    1 ≤ 2 ∧
    (NewChunker [97] (2 : Int) =
      .ok { chunkSize := 2, file := [97], fileSize := 1, numChunks := 1 } ∧
    getFlowTotalChunks 1 2 = (if (1 : Nat) = 0 then 1 else ceilDiv 1 2) ∧
    (0 < 1 → getFlowTotalChunks 1 2 = ceilDiv 1 2)) := by
  constructor
  · decide
  · have h := claim_C2_chunk_counts [97] 2 (by decide)
    simpa using h

/-- C6 (code bug): when the source reports unknown size (`Size() == -1`),
`objectSize` spools the stream to a temporary file and uses its stat size,
but its final statement `return "", size, nil` discards the spooled
filename, so `Put` never reopens the temp file (the exhausted original
reader feeds the chunk loop), and never deletes it. The first conjunct
evaluates the failing input; the last shows the known-size path for
contrast. -/
theorem claim_C6_spool_discarded :
    objectSize ⟨-1, [1, 2, 3, 4, 5]⟩ = ("", 5, []) ∧
    putSpool ⟨-1, [1, 2, 3, 4, 5]⟩ =
      { tempfileReturned := "", reopenedSpool := false, tempfileDeleted := false,
        bytesStreamedToChunks := [], totalSize := 5 } ∧
    putSpool ⟨5, [1, 2, 3, 4, 5]⟩ =
      { tempfileReturned := "", reopenedSpool := false, tempfileDeleted := false,
        bytesStreamedToChunks := [1, 2, 3, 4, 5], totalSize := 5 } :=
  ⟨rfl, rfl, rfl⟩

/-- C3: `finalize` (the body of `Shutdown`) is a success no-op with no
network call when the in-flight deposit identifier is 0; with a non-zero
identifier, HTTP 200 clears the identifier and succeeds; any non-200
response (or transport failure) surfaces an error and keeps the non-zero
identifier for a later retry; hence after one successful `Shutdown`, a
second `Shutdown` and the exit-hook `Terminate` observe identifier 0 and
issue no further network call. -/
theorem claim_C3_finalize (st : Nat) (resp : HTTPOutcome) :
    (st = 0 → finalize st resp = (0, false, none)) ∧
    (st ≠ 0 → finalize st (.response 200) = (0, true, none)) ∧
    (st ≠ 0 → ∀ code, code ≠ 200 →
      finalize st (.response code) = (st, true, some (.apiStatus code))) ∧
    (st ≠ 0 → finalize st .transportError = (st, true, some .transport)) ∧
    (∀ resp2, finalize 0 resp2 = (0, false, none)) ∧
    terminate 0 = false := by
  refine ⟨?_, ?_, ?_, ?_, ?_, rfl⟩
  · intro h; subst h; rfl
  · intro h; simp [finalize, h]
  · intro h code hcode; simp [finalize, h, hcode]
  · intro h; simp [finalize, h]
  · intro resp2; rfl

/-- Witness for C3 at identifier 7. -/
theorem claim_C3_finalize_witness :
    finalize 7 (HTTPOutcome.response 200) = (0, true, none) ∧
    finalize 7 (HTTPOutcome.response 503) = (7, true, some (.apiStatus 503)) ∧
    finalize 0 (HTTPOutcome.response 503) = (0, false, none) ∧
    terminate 0 = false :=
  ⟨(claim_C3_finalize 7 (.response 200)).2.1 (by decide),
   (claim_C3_finalize 7 (.response 503)).2.2.1 (by decide) 503 (by decide),
   (claim_C3_finalize 0 (.response 503)).1 rfl,
   (claim_C3_finalize 0 .transportError).2.2.2.2.2⟩

/-- The outcome of `requestDeposit` from the idle state under an environment
whose registration succeeds: the server-returned identifier is stored. -/
theorem requestDeposit_succeeds (e : RegisterEnv) (h : e.succeeds = true) :
    ∃ d, d ≠ 0 ∧ requestDeposit 0 e.root e.resp = (d, true, none) := by
  unfold RegisterEnv.succeeds at h
  rcases e with ⟨root, resp⟩
  rcases root with e₀ | node
  · simp at h
  · simp only [Bool.and_eq_true] at h
    rcases h with ⟨hkind, hresp⟩
    rcases resp with _ | ⟨status, did⟩
    · simp at hresp
    · simp only [Bool.and_eq_true, beq_iff_eq, bne_iff_ne, ne_eq] at hresp
      rcases hresp with ⟨hstatus, hdid⟩
      subst hstatus
      refine ⟨did, hdid, ?_⟩
      rcases node with ⟨kind, id, cid⟩
      cases kind with
      | collection =>
        simp only at hkind
        rcases Option.isSome_iff_exists.mp hkind with ⟨c, hc⟩
        subst hc
        simp [requestDeposit, requestDeposit.registerExchange, hdid]
      | folder =>
        simp [requestDeposit, requestDeposit.registerExchange, hdid]
      | organization => simp at hkind
      | file => simp at hkind

/-- A `requestDeposit` call from a non-zero state does nothing. -/
theorem runRequests_nonzero (envs : List RegisterEnv) (st : Nat) (h : st ≠ 0) :
    runRequests st envs = (st, 0) := by
  induction envs with
  | nil => rfl
  | cons e rest ih =>
    unfold runRequests
    rw [requestDeposit.eq_def, if_pos h]
    simpa using ih

/-- C4: at most one register-deposit request per process lifetime:
`requestDeposit` returns `nil` immediately, without any network request,
whenever `inflightDepositID` is non-zero; a successful registration stores
the server-returned identifier (test-and-set), after which every later
`Put` borrows it; so over any sequence of `Put` calls whose registration
exchanges succeed, exactly one register POST is issued (and none at all
once the identifier is set). -/
theorem claim_C4_register_once :
    (∀ (st : Nat) (root : Except VaultError ResolvedRoot) (resp : RegisterResponse),
      st ≠ 0 → requestDeposit st root resp = (st, false, none)) ∧
    (∀ e : RegisterEnv, e.succeeds = true →
      ∃ d, d ≠ 0 ∧ requestDeposit 0 e.root e.resp = (d, true, none)) ∧
    (∀ (envs : List RegisterEnv) (st : Nat), st ≠ 0 → runRequests st envs = (st, 0)) ∧
    (∀ envs : List RegisterEnv, (∀ e ∈ envs, e.succeeds = true) →
      (runRequests 0 envs).2 ≤ 1) := by
  refine ⟨?_, requestDeposit_succeeds, fun envs st h => runRequests_nonzero envs st h, ?_⟩
  · intro st root resp h
    rw [requestDeposit.eq_def, if_pos h]
  · intro envs h
    cases envs with
    | nil => simp [runRequests]
    | cons e rest =>
      have he : e.succeeds = true := h e (List.mem_cons_self e rest)
      rcases requestDeposit_succeeds e he with ⟨d, hd, heq⟩
      unfold runRequests
      rw [heq]
      simp only
      rw [runRequests_nonzero rest d hd]
      simp

/-- Witness for C4: a two-`Put` trace against a collection root with a
successful registration issues exactly one register POST. -/
theorem claim_C4_register_once_witness :
    requestDeposit 9 (Except.ok ⟨.collection, 3, some 5⟩) (.response 200 9) =
      (9, false, none) ∧
    (runRequests 0
      [⟨Except.ok ⟨.collection, 3, some 5⟩, .response 200 9⟩,
       ⟨Except.ok ⟨.collection, 3, some 5⟩, .response 200 9⟩]).2 ≤ 1 :=
  ⟨claim_C4_register_once.1 9 (Except.ok ⟨.collection, 3, some 5⟩) (.response 200 9)
      (by decide),
   claim_C4_register_once.2.2.2
      [⟨Except.ok ⟨.collection, 3, some 5⟩, .response 200 9⟩,
       ⟨Except.ok ⟨.collection, 3, some 5⟩, .response 200 9⟩]
      (by decide)⟩

/-- Every branch of the retry loop reports the single per-chunk context. -/
theorem runRetryLoop_contexts (results : List AttemptResult) :
    ∀ k, (runRetryLoop results k).contextsCreated = 1 := by
  induction results with
  | nil => intro k; rfl
  | cons r rest ih =>
    intro k
    unfold runRetryLoop
    cases classifyAttempt r with
    | success => rfl
    | fatal c => rfl
    | retryable => simpa using ih (k + 1)

/-- The delays slept by the retry loop are exactly the backoff schedule for
the retried attempts, offset by the starting attempt index. -/
theorem runRetryLoop_delays (results : List AttemptResult) :
    ∀ k, (runRetryLoop results k).delaysSlept =
      (List.range (numRetried results)).map fun j => backoffDelay (k + j) := by
  induction results with
  | nil => intro k; rfl
  | cons r rest ih =>
    intro k
    unfold runRetryLoop numRetried
    cases classifyAttempt r with
    | success => rfl
    | fatal c => rfl
    | retryable =>
      simp only
      rw [ih (k + 1), Nat.add_comm 1 (numRetried rest), List.range_succ_eq_map,
        List.map_cons, List.map_map]
      have h0 : backoffDelay (k + 0) = backoffDelay k := by norm_num
      have h1 : ((fun j => backoffDelay (k + j)) ∘ Nat.succ) =
          fun j => backoffDelay (k + 1 + j) := by
        funext j
        simp only [Function.comp_apply]
        congr 1
        omega
      rw [h0, h1]

/-- C5 (counterexample): two transport errors followed by a 200 make three
attempts for the chunk, yet only one upload context is created — the
24-hour-bounded context is per chunk (created once, before `retry.Do`),
not per attempt as the claim states. -/
theorem claim_C5_counterexample :
    runChunkRetry [.transportError, .transportError, .response 200] =
      { attemptsUsed := 3, succeeded := true, fatalCode := none,
        delaysSlept := [100, 100], contextsCreated := 1 } ∧
    ((runChunkRetry [.transportError, .transportError, .response 200]).contextsCreated ==
      (runChunkRetry [.transportError, .transportError, .response 200]).attemptsUsed) =
        false :=
  ⟨rfl, rfl⟩

/-- C5 (amended): each chunk POST is retried under a capped Fibonacci
backoff starting at 100 ms and capped at 30 s, under one fresh per-chunk
context bounded by a 24-hour ceiling that is shared by all attempts of
that chunk; an attempt is retried exactly when the transport errors or the
HTTP status is ≥ 500, and a 4xx status is surfaced immediately with no
further attempt. -/
theorem claim_C5_retry_policy :
    (∀ r : AttemptResult, classifyAttempt r = .retryable ↔
      (r = .transportError ∨ ∃ code, r = .response code ∧ 500 ≤ code)) ∧
    (∀ code, 400 ≤ code → code < 500 →
      ∀ rest, runChunkRetry (.response code :: rest) =
        { attemptsUsed := 1, succeeded := false, fatalCode := some code,
          delaysSlept := [], contextsCreated := 1 }) ∧
    (∀ results, (runChunkRetry results).delaysSlept =
      (List.range (numRetried results)).map backoffDelay) ∧
    (∀ k, backoffDelay k =
      min uploadChunkBackoffCapMillis (uploadChunkBackoffBaseMillis * fibSeq k)) ∧
    (∀ results, (runChunkRetry results).contextsCreated = 1) ∧
    uploadChunkTimeoutMillis = 24 * 60 * 60 * 1000 := by
  refine ⟨?_, ?_, ?_, fun _ => rfl, fun results => runRetryLoop_contexts results 0, rfl⟩
  · intro r
    cases r with
    | transportError => simp [classifyAttempt]
    | response code =>
      simp only [classifyAttempt]
      rcases le_or_lt 500 code with h | h
      · rw [if_pos h]
        exact ⟨fun _ => Or.inr ⟨code, rfl, h⟩, fun _ => rfl⟩
      · rw [if_neg (by omega)]
        constructor
        · intro hc
          split at hc <;> simp_all
        · rintro (hc | ⟨c, hc, hle⟩)
          · exact absurd hc (by simp)
          · rcases hc with ⟨⟩
            exact absurd hle (by omega)
  · intro code h4 h5 rest
    unfold runChunkRetry runRetryLoop
    have hclass : classifyAttempt (.response code) = .fatal code := by
      simp only [classifyAttempt]
      rw [if_neg (by omega), if_pos h4]
    rw [hclass]
  · intro results
    have h := runRetryLoop_delays results 0
    simpa using h

/-- Witness for C5: a 503 then a 404 — the 503 is retried (one 100 ms
backoff), the 404 aborts immediately; the amended theorem applied at
code 404. -/
theorem claim_C5_retry_policy_witness :
    (classifyAttempt (.response 503) = .retryable ↔
      ((AttemptResult.response 503) = .transportError ∨
        ∃ code, (AttemptResult.response 503) = .response code ∧ 500 ≤ code)) ∧
    runChunkRetry [.response 404] =
      { attemptsUsed := 1, succeeded := false, fatalCode := some 404,
        delaysSlept := [], contextsCreated := 1 } :=
  ⟨claim_C5_retry_policy.1 (.response 503),
   claim_C5_retry_policy.2.1 404 (by decide) (by decide) []⟩

/-- C8: for every file and chunk size `S ≥ 1`, the per-index chunk sizes of
a constructed chunker sum to the file size; `ChunkReader i` yields exactly
`S` bytes for every `i < count − 1` and the remainder
`size − (count − 1)·S` for the last chunk. (Readers are independent by
construction: each is a pure function of the index.) -/
theorem claim_C8_chunk_sizes (file : List Nat) (s : Nat) (c : Chunker)
    (hs : 1 ≤ s) (hc : NewChunker file (s : Int) = .ok c) :
    ((List.range c.numChunks).map fun i => (c.ChunkReader i).length).sum
        = file.length ∧
    (∀ i, i + 1 < c.numChunks → (c.ChunkReader i).length = s) ∧
    (0 < c.numChunks →
      (c.ChunkReader (c.numChunks - 1)).length
        = file.length - (c.numChunks - 1) * s) := by
  have hns : ¬((s : Int) < 1) := by exact_mod_cast Nat.not_lt.mpr hs
  rw [NewChunker, if_neg hns] at hc
  rcases c with ⟨cs, f, fs, nc⟩
  simp only [Except.ok.injEq, Chunker.mk.injEq, Int.toNat_natCast] at hc
  obtain ⟨hcs, hf, hfs, hnc⟩ := hc
  subst hcs hf hfs hnc
  refine ⟨?_, ?_, ?_⟩
  · have hjoin := chunks_join s hs file
    have hlen := congrArg List.length hjoin
    rw [List.length_flatten] at hlen
    unfold chunks at hlen
    rw [List.map_map] at hlen
    exact hlen
  · intro i hi
    have hi' : i + 1 < ceilDiv file.length s := hi
    have hlt := lt_ceilDiv_mul file.length s i hs hi'
    have hexp : (i + 1) * s = i * s + s := by ring
    show (List.take s (List.drop (i * s) file)).length = s
    rw [List.length_take, List.length_drop]
    omega
  · intro hpos
    have hpos' : 0 < ceilDiv file.length s := hpos
    have hle := ceilDiv_le_mul s hs file.length
    have hexp : ceilDiv file.length s * s
        = (ceilDiv file.length s - 1) * s + s := by
      have h1 : ceilDiv file.length s = (ceilDiv file.length s - 1) + 1 := by omega
      calc ceilDiv file.length s * s
          = ((ceilDiv file.length s - 1) + 1) * s := by rw [← h1]
        _ = (ceilDiv file.length s - 1) * s + s := by ring
    show (List.take s (List.drop ((ceilDiv file.length s - 1) * s) file)).length
        = file.length - (ceilDiv file.length s - 1) * s
    rw [List.length_take, List.length_drop]
    omega

/-- Witness for C8 at the spec's example: file "abcde", `S = 2` (chunk
sizes 2, 2, 1). -/
theorem claim_C8_chunk_sizes_witness :
    1 ≤ 2 ∧
    (((List.range (3 : Nat)).map fun i =>
        ((Chunker.mk 2 [97, 98, 99, 100, 101] 5 3).ChunkReader i).length).sum = 5 ∧
    (∀ i, i + 1 < 3 →
      ((Chunker.mk 2 [97, 98, 99, 100, 101] 5 3).ChunkReader i).length = 2) ∧
    (0 < 3 →
      ((Chunker.mk 2 [97, 98, 99, 100, 101] 5 3).ChunkReader (3 - 1)).length
        = 5 - (3 - 1) * 2)) := by
  constructor
  · decide
  · have h := claim_C8_chunk_sizes [97, 98, 99, 100, 101] 2
      (Chunker.mk 2 [97, 98, 99, 100, 101] 5 3) (by decide) rfl
    simpa using h

/-- C9: `mkdir` on a path whose node already exists as a FOLDER or
COLLECTION succeeds as a no-op; `mkdir` on a path occupied by a FILE
returns the "path already exists" error; and an attempt to deposit
directly at `/` (the root resolving to the ORGANIZATION node) fails in
`requestDeposit` with `ErrCannotCopyToRoot` (the spec's
`CannotCreateAtRoot`) before any register request is issued. -/
theorem claim_C9_mkdir (st : ServerState) (root dir : String) (t : NodeType)
    (h : resolveNode st dir = some t) :
    ((t = .folder ∨ t = .collection) → mkdirGo st root dir = .ok st) ∧
    (t = .file → mkdirGo st root dir = .error (.pathExists .file)) ∧
    (∀ (rt : ResolvedRoot) (resp : RegisterResponse),
      rt.nodeType = .organization →
      requestDeposit 0 (.ok rt) resp = (0, false, some .cannotCopyToRoot)) := by
  refine ⟨?_, ?_, ?_⟩
  · intro ht
    unfold mkdirGo
    rw [h]
    rcases ht with ht | ht <;> subst ht <;> rfl
  · intro ht
    subst ht
    unfold mkdirGo
    rw [h]
    rfl
  · intro rt resp hrt
    rcases rt with ⟨kind, id, cid⟩
    simp only at hrt
    subst hrt
    rfl

/-- Witness for C9 against a small server: a collection `/c`, a folder
`/c/f` and a file `/c/f/x` already exist. -/
theorem claim_C9_mkdir_witness :
    (mkdirGo ⟨[("/c", .collection), ("/c/f", .folder), ("/c/f/x", .file)]⟩
        "/c" "/c/f" = .ok ⟨[("/c", .collection), ("/c/f", .folder), ("/c/f/x", .file)]⟩) ∧
    (mkdirGo ⟨[("/c", .collection), ("/c/f", .folder), ("/c/f/x", .file)]⟩
        "/c" "/c/f/x" = .error (.pathExists .file)) ∧
    requestDeposit 0 (.ok ⟨.organization, 1, none⟩) (.response 200 9) =
      (0, false, some .cannotCopyToRoot) :=
  ⟨(claim_C9_mkdir ⟨[("/c", .collection), ("/c/f", .folder), ("/c/f/x", .file)]⟩
      "/c" "/c/f" .folder (by decide)).1 (Or.inl rfl),
   (claim_C9_mkdir ⟨[("/c", .collection), ("/c/f", .folder), ("/c/f/x", .file)]⟩
      "/c" "/c/f/x" .file (by decide)).2.1 rfl,
   (claim_C9_mkdir ⟨[("/c", .collection), ("/c/f", .folder), ("/c/f/x", .file)]⟩
      "/c" "/c/f" .folder (by decide)).2.2 ⟨.organization, 1, none⟩ (.response 200 9) rfl⟩

set_option maxRecDepth 1000000 in
/-- C7: `IsValidPath p` is false precisely when `p` is empty, is exactly
`/`, exceeds 4096 bytes, contains `//`, has a `.` or `..` segment, has a
segment over 255 bytes, contains NUL, LF or CR, is not valid UTF-8, fails
the XML character-data probe, or pairs a reserved `DPS-VAULT` /
`IA-DPS-VAULT` prefix (after stripping leading slashes) with a reserved
`_files.xml` / `_meta.xml` / `_meta.sqlite` / `_reviews.xml` suffix — and
the five concrete paths of the spec evaluate as quoted. -/
theorem claim_C7_path_validator :
    (∀ p : List Nat,
      IsValidPath p = false ↔
        (p = [] ∨ p = [47] ∨ maxPathLength < p.length ∨ hasDoubleSlash p = true ∨
          (∃ seg ∈ splitSlash p, seg = [46] ∨ seg = [46, 46]) ∨
          (∃ seg ∈ splitSlash p, maxNameLength < seg.length) ∨
          p.contains 0 = true ∨ p.contains 10 = true ∨ p.contains 13 = true ∨
          utf8Valid p = false ∨ xmlTextOk p = false ∨
          reservedName defaultVaultItemPrefixes p = true)) ∧
    IsValidPath (ascii "/DPS-VAULT-A/foo_meta.xml") = false ∧
    IsValidPath (ascii "/Collection/a/b/c.pdf") = true ∧
    IsValidPath (ascii "/a//b") = false ∧
    IsValidPath (ascii "/./x") = false ∧
    IsValidPath (47 :: List.replicate 4096 97) = false := by
  have hlong : IsValidPath (47 :: List.replicate 4096 97) = false := by
    have hlen : (47 :: List.replicate 4096 97 : List Nat).length = 4097 := by
      rw [List.length_cons, List.length_replicate]
    unfold IsValidPath isValidPathWith
    rw [if_neg (by decide), if_neg (by decide), if_pos]
    rw [hlen]
    norm_num [maxPathLength]
  refine ⟨?_, by decide, by decide, by decide, by decide, hlong⟩
  intro p
  unfold IsValidPath isValidPathWith
  split_ifs with h1 h2 h3 h4 h5 h6 h7 h8
  · refine iff_of_true rfl ?_
    exact Or.inl (by simpa using h1)
  · refine iff_of_true rfl ?_
    exact Or.inr (Or.inl (by simpa using h2))
  · refine iff_of_true rfl ?_
    exact Or.inr (Or.inr (Or.inl h3))
  · refine iff_of_true rfl ?_
    exact Or.inr (Or.inr (Or.inr (Or.inl h4)))
  · refine iff_of_true rfl ?_
    have hu : utf8Valid p = false := by simpa using h5
    exact Or.inr (Or.inr (Or.inr (Or.inr (Or.inr (Or.inr (Or.inr (Or.inr (Or.inr
      (Or.inl hu)))))))))
  · refine iff_of_true rfl ?_
    exact Or.inr (Or.inr (Or.inr (Or.inr (Or.inr (Or.inr (Or.inr (Or.inr (Or.inr
      (Or.inr (Or.inr h6))))))))))
  · refine iff_of_true rfl ?_
    rw [List.any_eq_true] at h7
    rcases h7 with ⟨seg, hmem, hbad⟩
    unfold badSegment at hbad
    simp only [Bool.or_eq_true, beq_iff_eq, decide_eq_true_eq] at hbad
    rcases hbad with (h | h) | h
    · exact Or.inr (Or.inr (Or.inr (Or.inr (Or.inl ⟨seg, hmem, Or.inl h⟩))))
    · exact Or.inr (Or.inr (Or.inr (Or.inr (Or.inl ⟨seg, hmem, Or.inr h⟩))))
    · exact Or.inr (Or.inr (Or.inr (Or.inr (Or.inr (Or.inl ⟨seg, hmem, h⟩)))))
  · refine iff_of_true rfl ?_
    simp only [Bool.or_eq_true] at h8
    rcases h8 with (h | h) | h
    · exact Or.inr (Or.inr (Or.inr (Or.inr (Or.inr (Or.inr (Or.inl h))))))
    · exact Or.inr (Or.inr (Or.inr (Or.inr (Or.inr (Or.inr (Or.inr (Or.inl h)))))))
    · exact Or.inr (Or.inr (Or.inr (Or.inr (Or.inr (Or.inr (Or.inr (Or.inr
        (Or.inl h))))))))
  · constructor
    · intro hx
      exact Or.inr (Or.inr (Or.inr (Or.inr (Or.inr (Or.inr (Or.inr (Or.inr (Or.inr
        (Or.inr (Or.inl hx))))))))))
    · intro hdisj
      rcases hdisj with hp | hp | hp | hp | hp | hp | hp | hp | hp | hp | hp | hp
      · simp [hp] at h1
      · simp [hp] at h2
      · exact absurd hp h3
      · exact absurd hp h4
      · exfalso
        apply h7
        rw [List.any_eq_true]
        rcases hp with ⟨seg, hmem, hseg⟩
        refine ⟨seg, hmem, ?_⟩
        unfold badSegment
        rcases hseg with h | h <;> simp [h]
      · exfalso
        apply h7
        rw [List.any_eq_true]
        rcases hp with ⟨seg, hmem, hseg⟩
        refine ⟨seg, hmem, ?_⟩
        unfold badSegment
        simp [hseg]
      · exfalso
        apply h8
        simp only [Bool.or_eq_true]
        exact Or.inl (Or.inl hp)
      · exfalso
        apply h8
        simp only [Bool.or_eq_true]
        exact Or.inl (Or.inr hp)
      · exfalso
        apply h8
        simp only [Bool.or_eq_true]
        exact Or.inr hp
      · rw [hp] at h5
        simp at h5
      · exact hp
      · exact absurd hp h6

/-- A successful `getNum4` means the input starts with a digit. -/
theorem getNum4_head (l : List Char) (x : Nat × List Char) (h : getNum4 l = some x) :
    ∃ c rest, l = c :: rest ∧ isDigitC c = true := by
  match l with
  | [] => simp [getNum4] at h
  | [c1] => simp [getNum4] at h
  | [c1, c2] => simp [getNum4] at h
  | [c1, c2, c3] => simp [getNum4] at h
  | c1 :: c2 :: c3 :: c4 :: rest =>
    refine ⟨c1, c2 :: c3 :: c4 :: rest, rfl, ?_⟩
    by_contra hd
    rw [Bool.not_eq_true] at hd
    simp [getNum4, hd] at h

/-- A successful ISO-layout parse means the input starts with a digit. -/
theorem parseLayoutIso_head (cs : List Char) (t : GoTime)
    (h : parseLayoutIso cs = some t) :
    ∃ c rest, cs = c :: rest ∧ isDigitC c = true := by
  unfold parseLayoutIso at h
  cases hg : getNum4 cs with
  | none => rw [hg] at h; simp at h
  | some x => exact getNum4_head cs x hg

/-- A successful case-insensitive prefix match forces equal lowered heads. -/
theorem ciIsPrefixOf_head (p : Char) (ps s : List Char)
    (h : ciIsPrefixOf (p :: ps) s = true) :
    ∃ c cs, s = c :: cs ∧ lowerC p = lowerC c := by
  cases s with
  | nil => simp [ciIsPrefixOf] at h
  | cons c cs =>
    refine ⟨c, cs, rfl, ?_⟩
    unfold ciIsPrefixOf at h
    simp only [Bool.and_eq_true, beq_iff_eq] at h
    exact h.1

/-- A successful month lookup means some month name matched. -/
theorem lookupMonthAux_match :
    ∀ (names : List (List Char)) (i : Nat) (s : List Char) (r : Nat × List Char),
      lookupMonthAux names i s = some r → ∃ n ∈ names, ciIsPrefixOf n s = true := by
  intro names
  induction names with
  | nil => intro i s r h; simp [lookupMonthAux] at h
  | cons n rest ih =>
    intro i s r h
    unfold lookupMonthAux at h
    by_cases hn : ciIsPrefixOf n s = true
    · exact ⟨n, List.mem_cons_self n rest, hn⟩
    · rw [if_neg hn] at h
      rcases ih (i + 1) s r h with ⟨m, hm, hp⟩
      exact ⟨m, List.mem_cons_of_mem n hm, hp⟩

/-- Every month name starts with an ASCII letter. -/
theorem monthNames_head :
    ∀ n ∈ monthNames,
      (match n with
       | c :: _ => 97 ≤ (lowerC c).toNat && (lowerC c).toNat ≤ 122
       | [] => false) = true := by
  decide

/-- A successful long-month-layout parse means the input starts with a
non-digit (a month letter). -/
theorem parseLayout1_head (cs : List Char) (t : GoTime)
    (h : parseLayout1 cs = some t) :
    ∃ c rest, cs = c :: rest ∧ isDigitC c = false := by
  unfold parseLayout1 at h
  cases hm : lookupMonth cs with
  | none => rw [hm] at h; simp at h
  | some x =>
    rcases lookupMonthAux_match monthNames 0 cs x hm with ⟨n, hn, hp⟩
    have hhead := monthNames_head n hn
    cases n with
    | nil => simp at hhead
    | cons nc nrest =>
      simp only [Bool.and_eq_true, decide_eq_true_eq] at hhead
      rcases ciIsPrefixOf_head nc nrest cs hp with ⟨c, cs2, hcs, hlow⟩
      refine ⟨c, cs2, hcs, ?_⟩
      by_contra hd
      rw [Bool.not_eq_false] at hd
      unfold isDigitC at hd
      simp only [Bool.and_eq_true, decide_eq_true_eq] at hd
      have hcc : lowerC c = c := by
        unfold lowerC
        rw [if_neg]
        simp only [Bool.and_eq_true, decide_eq_true_eq, not_and]
        omega
      have := congrArg Char.toNat hlow
      rw [hcc] at this
      omega

/-- The long-month layout and the ISO layouts accept disjoint inputs. -/
theorem parseLayouts_disjoint (cs : List Char) (t1 t2 : GoTime)
    (h1 : parseLayout1 cs = some t1) (h2 : parseLayoutIso cs = some t2) :
    False := by
  rcases parseLayout1_head cs t1 h1 with ⟨c, r, hcs, hd⟩
  rcases parseLayoutIso_head cs t2 h2 with ⟨c', r', hcs', hd'⟩
  rw [hcs] at hcs'
  injection hcs' with hc hr
  rw [← hc] at hd'
  rw [hd] at hd'
  exact Bool.false_ne_true hd'

/-- If any of the three layouts parses `s` to `t`, the layout loop yields
`t`. -/
theorem firstParse_spec (s : List Char) (t : GoTime)
    (h : parseLayout1 s = some t ∨ parseLayoutIso s = some t) :
    firstParse modTimeLayouts s = some t := by
  rcases h with h | h
  · simp [modTimeLayouts, firstParse, h]
  · cases hp : parseLayout1 s with
    | none => simp [modTimeLayouts, firstParse, hp, h]
    | some t' => exact (parseLayouts_disjoint s t' t hp h).elim

/-- C10: `Object.ModTime` is total — it returns the parsed server timestamp
when `ModifiedAt` matches one of the three accepted layouts (the two ISO
layouts parse identically, and no string matches both the long-month and
the ISO family), and returns the Unix epoch whenever the object or its
tree node is nil or the string fails to parse under all layouts. -/
theorem claim_C10_modtime :
    (∀ o : Option ObjectM, (o = none ∨ o = some ⟨none⟩) → ModTime o = epochTime) ∧
    (∀ (node : TreeNodeM) (t : GoTime),
      (parseLayout1 node.modifiedAt.data = some t ∨
        parseLayoutIso node.modifiedAt.data = some t) →
      ModTime (some ⟨some node⟩) = t) ∧
    (∀ node : TreeNodeM,
      parseLayout1 node.modifiedAt.data = none →
      parseLayoutIso node.modifiedAt.data = none →
      ModTime (some ⟨some node⟩) = epochTime) := by
  refine ⟨?_, ?_, ?_⟩
  · rintro o (rfl | rfl) <;> rfl
  · intro node t ht
    show (match firstParse modTimeLayouts node.modifiedAt.data with
      | some t => t
      | none => epochTime) = t
    rw [firstParse_spec node.modifiedAt.data t ht]
  · intro node h1 h2
    show (match firstParse modTimeLayouts node.modifiedAt.data with
      | some t => t
      | none => epochTime) = epochTime
    rw [show firstParse modTimeLayouts node.modifiedAt.data = none by
      simp [modTimeLayouts, firstParse, h1, h2]]

set_option maxRecDepth 1000000 in
/-- Witness for C10: one string per layout family, one garbage string, and
the nil object. -/
theorem claim_C10_modtime_witness :
    ModTime none = epochTime ∧
    ModTime (some ⟨some ⟨"September 18, 2023 12:05:07 UTC"⟩⟩) =
      ⟨2023, 9, 18, 12, 5, 7, 0⟩ ∧
    ModTime (some ⟨some ⟨"2023-01-02T03:04:05.5Z"⟩⟩) =
      ⟨2023, 1, 2, 3, 4, 5, 500000000⟩ ∧
    ModTime (some ⟨some ⟨"not a timestamp"⟩⟩) = epochTime :=
  ⟨claim_C10_modtime.1 none (Or.inl rfl),
   claim_C10_modtime.2.1 ⟨"September 18, 2023 12:05:07 UTC"⟩ _ (Or.inl (by decide)),
   claim_C10_modtime.2.1 ⟨"2023-01-02T03:04:05.5Z"⟩ _ (Or.inr (by decide)),
   claim_C10_modtime.2.2 ⟨"not a timestamp"⟩ (by decide) (by decide)⟩

end Vault
